import Mathlib

/-!
Shallow embedding of the broker adapter layer of the repository
(`src/mcp-server/src/brokers/base.py`, `mock.py`, `ibkr.py`).

Conventions of the embedding:
* Python floats are modelled as `ℚ`; Python ints as `Int` (a counter that is
  only ever incremented is modelled as `Nat`).
* Python dicts are modelled as association lists (`List (String × α)`) with
  insertion-order semantics: updating an existing key keeps its place, a new
  key is appended at the end, exactly like a Python dict.
* Randomness (`random.random()`, `random.uniform`, `random.randint`) is
  modelled by explicit oracle arguments; `uniform a b x` clamps the draw into
  `[a, b]`, so quantifying over draws ranges over exactly the values the
  library can return, and `randint` fails on an empty range like Python does.
* Exceptions are modelled by `Except PyError`; a method that can both mutate
  state and raise returns the post-state alongside the `Except` value, so a
  raise after a partial mutation (e.g. the order counter bump in
  `place_order`) is represented faithfully.
* Opaque diagnostic fields (`metadata`, `raw_response`) carry no behavior in
  the source and are omitted from the structures.
-/

namespace SwingSage

/-! ### Association lists standing for Python dicts -/

def alistLookup {α : Type} : List (String × α) → String → Option α
  | [], _ => none
  | (k, v) :: rest, key => if k = key then some v else alistLookup rest key

def alistInsert {α : Type} : List (String × α) → String → α → List (String × α)
  | [], key, val => [(key, val)]
  | (k, v) :: rest, key, val =>
    if k = key then (key, val) :: rest else (k, v) :: alistInsert rest key val

def alistErase {α : Type} : List (String × α) → String → List (String × α)
  | [], _ => []
  | (k, v) :: rest, key => if k = key then rest else (k, v) :: alistErase rest key

/-! ### Enumerations from `base.py` -/

inductive OrderSide where
  | BUY
  | SELL
deriving DecidableEq, Repr

inductive OrderType where
  | MARKET
  | LIMIT
  | STOP
  | STOP_LIMIT
deriving DecidableEq, Repr

inductive TimeInForce where
  | DAY
  | IOC
  | GTC
  | FOK
deriving DecidableEq, Repr

inductive OrderStatus where
  | NEW
  | PENDING
  | PARTIAL
  | FILLED
  | REJECTED
  | CANCELLED
  | EXPIRED
deriving DecidableEq, Repr

/-! ### Error channel: Python exception kinds that cross the adapter code -/

inductive PyError where
  | brokerError (msg : String)
  | valueError (msg : String)
  | typeError (msg : String)
  | keyError (key : String)
deriving DecidableEq, Repr

/-! ### `OrderRequest` and its `__post_init__` validation -/

structure OrderRequest where
  client_order_id : String
  symbol : String
  qty : Int
  side : OrderSide
  order_type : OrderType
  limit_price : Option ℚ
  stop_price : Option ℚ
  tif : TimeInForce
deriving DecidableEq, Repr

/-- `OrderRequest.__post_init__` from `base.py`: validation run at
construction time, raising `ValueError` on the first failing check. -/
def OrderRequest.post_init (r : OrderRequest) : Except PyError OrderRequest :=
  if (r.order_type = OrderType.LIMIT ∨ r.order_type = OrderType.STOP_LIMIT)
      ∧ r.limit_price = none then
    .error (.valueError "orders require limit_price")
  else if (r.order_type = OrderType.STOP ∨ r.order_type = OrderType.STOP_LIMIT)
      ∧ r.stop_price = none then
    .error (.valueError "orders require stop_price")
  else if r.qty ≤ 0 then
    .error (.valueError "Quantity must be positive")
  else
    .ok r

/-- `true` when the constructor validation passes. -/
def OrderRequest.isValid (r : OrderRequest) : Bool :=
  match r.post_init with
  | .ok _ => true
  | .error _ => false

/-! ### `OrderFill` and `Order` -/

structure OrderFill where
  price : ℚ
  qty : Int
  timestamp : ℚ
  fill_id : Option String
deriving DecidableEq, Repr

structure Order where
  broker_order_id : String
  request : OrderRequest
  status : OrderStatus
  filled_qty : Int
  avg_fill_price : Option ℚ
  fills : List OrderFill
  created_at : ℚ
  updated_at : ℚ
  reject_reason : Option String
deriving DecidableEq, Repr

/-- Constructor matching `Order(broker_order_id=..., request=..., status=...,
reject_reason=...)` with the dataclass defaults for the remaining fields
(`time.time()` becomes the explicit `now` argument). -/
def mkOrder (broker_order_id : String) (request : OrderRequest)
    (status : OrderStatus) (reject_reason : Option String) (now : ℚ) : Order :=
  { broker_order_id := broker_order_id
    request := request
    status := status
    filled_qty := 0
    avg_fill_price := none
    fills := []
    created_at := now
    updated_at := now
    reject_reason := reject_reason }

def Order.remaining_qty (o : Order) : Int :=
  o.request.qty - o.filled_qty

def OrderStatus.isTerminalStatus : OrderStatus → Bool
  | .FILLED => true
  | .REJECTED => true
  | .CANCELLED => true
  | .EXPIRED => true
  | _ => false

def Order.is_terminal (o : Order) : Bool :=
  o.status.isTerminalStatus

/-- Total value `Σ f.price * f.qty` over a list of fills, as computed inside
`Order.add_fill`. -/
def fillsValue (fills : List OrderFill) : ℚ :=
  (fills.map (fun f => f.price * (f.qty : ℚ))).sum

/-- `Order.add_fill` from `base.py`: append the fill, bump `filled_qty` and
`updated_at`, recompute the quantity-weighted average price over all fills,
and update the status. -/
def Order.add_fill (o : Order) (fill : OrderFill) (now : ℚ) : Order :=
  let fills := o.fills ++ [fill]
  let filled_qty := o.filled_qty + fill.qty
  let status :=
    if o.request.qty ≤ filled_qty then OrderStatus.FILLED
    else if 0 < filled_qty then OrderStatus.PARTIAL
    else o.status
  { o with
      fills := fills
      filled_qty := filled_qty
      updated_at := now
      avg_fill_price := some (fillsValue fills / (filled_qty : ℚ))
      status := status }

/-! ### `Position` and `AccountInfo` -/

structure Position where
  symbol : String
  qty : Int
  avg_cost : ℚ
  market_value : ℚ
  unrealized_pnl : ℚ
deriving DecidableEq, Repr

structure AccountInfo where
  account_id : String
  cash_balance : ℚ
  buying_power : ℚ
  total_equity : ℚ
  day_trades_remaining : Option Int
deriving DecidableEq, Repr

/-! ### Random-source model

Each call into the `random` module is one oracle value.  `uniform` clamps the
draw into the interval (every value of `random.uniform a b` is reachable by
some draw and no other value is); `randint` clamps into `[lo, hi]` and raises
`ValueError` on an empty range, as `random.randint` does. -/

def uniform (a b x : ℚ) : ℚ :=
  min b (max a x)

def randint (lo hi draw : Int) : Except PyError Int :=
  if hi < lo then .error (.valueError "empty range for randrange")
  else .ok (min hi (max lo draw))

/-- Oracle for one `MockBroker._simulate_fill` call: the `random.uniform`
price jitter, the `random.random()` partial-fill draw, and the
`random.randint` partial quantity draw. -/
structure FillOracle where
  jitter : ℚ
  partDraw : ℚ
  partQty : Int
deriving DecidableEq, Repr

/-- Oracle for one `MockBroker.place_order` call: the `random.random()`
rejection draw plus the fill-simulation oracle. -/
structure PlaceOracle where
  rejectDraw : ℚ
  fill : FillOracle
deriving DecidableEq, Repr

/-- Oracle for one `MockBroker.get_order` call: the `random.random()`
status-refresh draw plus the fill-simulation oracle. -/
structure GetOracle where
  refreshDraw : ℚ
  fill : FillOracle
deriving DecidableEq, Repr

/-! ### `MockBroker` state (`mock.py`) -/

structure MockBroker where
  simulate_latency : Bool
  rejection_rate : ℚ
  partial_fill_rate : ℚ
  cash_balance : ℚ
  positions : List (String × Position)
  orders : List (String × Order)
  client_order_map : List (String × String)
  connected : Bool
  order_counter : Nat
  market_prices : List (String × ℚ)
deriving DecidableEq, Repr

/-- `MockBroker.__init__`. -/
def mkMockBroker (simulate_latency : Bool) (rejection_rate partial_fill_rate
    initial_cash : ℚ) : MockBroker :=
  { simulate_latency := simulate_latency
    rejection_rate := rejection_rate
    partial_fill_rate := partial_fill_rate
    cash_balance := initial_cash
    positions := []
    orders := []
    client_order_map := []
    connected := false
    order_counter := 1000
    market_prices :=
      [("AAPL", 180), ("MSFT", 380), ("GOOGL", 140), ("AMZN", 160),
       ("AMD", 140), ("AAPL240315C00180000", 5), ("MSFT240315C00380000", 8)] }

def MockBroker.connect (b : MockBroker) : MockBroker :=
  { b with connected := true }

def MockBroker.disconnect (b : MockBroker) : MockBroker :=
  { b with connected := false }

def MockBroker.is_connected (b : MockBroker) : Bool :=
  b.connected

/-- The broker order id minted by `place_order`: `f"MOCK_{self._order_counter}"`. -/
def mkBrokerOrderId (n : Nat) : String :=
  "MOCK_" ++ Nat.repr n

/-- The simulated market price used by `_simulate_fill`: the per-symbol
reference price (default `100.0`) with a ±2% uniform jitter. -/
def MockBroker.marketPriceOf (b : MockBroker) (symbol : String) (jitter : ℚ) : ℚ :=
  let base_price := (alistLookup b.market_prices symbol).getD 100
  base_price * (1 + uniform (-(1 : ℚ)/50) ((1 : ℚ)/50) jitter)

/-- The fill-price branch of `_simulate_fill`: `.ok none` means a
non-marketable limit order that is left as NEW; comparing a missing
`limit_price` against the market price is Python's `TypeError`. -/
def fillPriceFor (req : OrderRequest) (market_price : ℚ) :
    Except PyError (Option ℚ) :=
  match req.order_type with
  | OrderType.MARKET => .ok (some market_price)
  | OrderType.LIMIT =>
    match req.limit_price with
    | none => .error (.typeError "comparison of None and float")
    | some lp =>
      match req.side with
      | OrderSide.BUY =>
        if lp ≥ market_price then .ok (some (min lp market_price)) else .ok none
      | OrderSide.SELL =>
        if lp ≤ market_price then .ok (some (max lp market_price)) else .ok none
  | _ => .ok (some market_price)

/-- `MockBroker._update_position` from `mock.py`, including the asymmetric
treatment of BUY and SELL fills on an existing position and the removal of a
position whose quantity reaches zero. -/
def MockBroker.update_position (b : MockBroker) (symbol : String)
    (side : OrderSide) (qty : Int) (price : ℚ) : MockBroker :=
  match alistLookup b.positions symbol with
  | none =>
    let pos : Position :=
      match side with
      | OrderSide.BUY =>
        { symbol := symbol, qty := qty, avg_cost := price
          market_value := (qty : ℚ) * price, unrealized_pnl := 0 }
      | OrderSide.SELL =>
        { symbol := symbol, qty := -qty, avg_cost := price
          market_value := (qty : ℚ) * price, unrealized_pnl := 0 }
    { b with positions := alistInsert b.positions symbol pos }
  | some pos =>
    let pos :=
      match side with
      | OrderSide.BUY =>
        let new_qty := pos.qty + qty
        let new_avg_cost :=
          if pos.qty = 0 then price
          else
            let total_cost := (pos.qty : ℚ) * pos.avg_cost + (qty : ℚ) * price
            if new_qty ≠ 0 then total_cost / (new_qty : ℚ) else 0
        { pos with qty := new_qty, avg_cost := new_avg_cost }
      | OrderSide.SELL =>
        { pos with qty := pos.qty - qty }
    let current_price := (alistLookup b.market_prices symbol).getD price
    let pos :=
      { pos with
          market_value := (|pos.qty| : ℚ) * current_price
          unrealized_pnl := (current_price - pos.avg_cost) * (pos.qty : ℚ) }
    if pos.qty = 0 then
      { b with positions := alistErase b.positions symbol }
    else
      { b with positions := alistInsert b.positions symbol pos }

/-- `MockBroker._simulate_fill`: on success returns the broker (with updated
positions and cash) and the updated order; orders map, counter, prices and
connection are untouched.  The `ValueError` from `random.randint(1, qty-1)`
on a one-share order escapes before any mutation. -/
def MockBroker.simulate_fill (b : MockBroker) (order : Order) (orc : FillOracle)
    (now : ℚ) : Except PyError (MockBroker × Order) :=
  let market_price := b.marketPriceOf order.request.symbol orc.jitter
  match fillPriceFor order.request market_price with
  | .error e => .error e
  | .ok none => .ok (b, order)
  | .ok (some fill_price) =>
    let fillQtyE : Except PyError Int :=
      if orc.partDraw < b.partial_fill_rate then
        randint 1 (order.request.qty - 1) orc.partQty
      else
        .ok (order.request.qty - order.filled_qty)
    match fillQtyE with
    | .error e => .error e
    | .ok fill_qty =>
      let fill : OrderFill :=
        { price := fill_price, qty := fill_qty, timestamp := now, fill_id := none }
      let order' := order.add_fill fill now
      let b' := b.update_position order.request.symbol order.request.side
        fill_qty fill_price
      let b' :=
        if order.request.side = OrderSide.BUY then
          { b' with cash_balance := b'.cash_balance - (fill_qty : ℚ) * fill_price }
        else
          { b' with cash_balance := b'.cash_balance + (fill_qty : ℚ) * fill_price }
      .ok (b', order')

/-- `MockBroker.place_order`; the pair is (post-state, result), so a raise
after the order-counter bump keeps the bump, as in the source. -/
def MockBroker.place_order (b : MockBroker) (request : OrderRequest)
    (orc : PlaceOracle) (now : ℚ) : MockBroker × Except PyError Order :=
  if ¬ b.is_connected then
    (b, .error (.brokerError "Mock broker not connected"))
  else
    match alistLookup b.client_order_map request.client_order_id with
    | some broker_order_id =>
      match alistLookup b.orders broker_order_id with
      | some order => (b, .ok order)
      | none => (b, .error (.keyError broker_order_id))
    | none =>
      let broker_order_id := mkBrokerOrderId b.order_counter
      let b := { b with order_counter := b.order_counter + 1 }
      if orc.rejectDraw < b.rejection_rate then
        let order := mkOrder broker_order_id request OrderStatus.REJECTED
          (some "Mock rejection for testing") now
        ({ b with
            orders := alistInsert b.orders broker_order_id order
            client_order_map :=
              alistInsert b.client_order_map request.client_order_id
                broker_order_id },
         .ok order)
      else
        let order := mkOrder broker_order_id request OrderStatus.NEW none now
        match b.simulate_fill order orc.fill now with
        | .error e => (b, .error e)
        | .ok (b, order) =>
          ({ b with
              orders := alistInsert b.orders broker_order_id order
              client_order_map :=
                alistInsert b.client_order_map request.client_order_id
                  broker_order_id },
           .ok order)

/-- `MockBroker.get_order`, including the 10% chance of re-running the fill
simulation on a NEW order. -/
def MockBroker.get_order (b : MockBroker) (broker_order_id : String)
    (orc : GetOracle) (now : ℚ) : MockBroker × Except PyError Order :=
  if ¬ b.is_connected then
    (b, .error (.brokerError "Mock broker not connected"))
  else
    match alistLookup b.orders broker_order_id with
    | none => (b, .error (.brokerError ("Order not found: " ++ broker_order_id)))
    | some order =>
      if order.status = OrderStatus.NEW ∧ orc.refreshDraw < (1 : ℚ)/10 then
        match b.simulate_fill order orc.fill now with
        | .error e => (b, .error e)
        | .ok (b, order) =>
          ({ b with orders := alistInsert b.orders broker_order_id order },
           .ok order)
      else
        (b, .ok order)

/-- `MockBroker.cancel_order`. -/
def MockBroker.cancel_order (b : MockBroker) (broker_order_id : String)
    (now : ℚ) : MockBroker × Except PyError Order :=
  if ¬ b.is_connected then
    (b, .error (.brokerError "Mock broker not connected"))
  else
    match alistLookup b.orders broker_order_id with
    | none => (b, .error (.brokerError ("Order not found: " ++ broker_order_id)))
    | some order =>
      if order.is_terminal then
        (b, .error (.brokerError "Cannot cancel order in terminal state"))
      else
        let order := { order with status := OrderStatus.CANCELLED, updated_at := now }
        ({ b with orders := alistInsert b.orders broker_order_id order }, .ok order)

/-- `MockBroker.get_positions`. -/
def MockBroker.get_positions (b : MockBroker) : Except PyError (List Position) :=
  if ¬ b.is_connected then .error (.brokerError "Mock broker not connected")
  else .ok (b.positions.map Prod.snd)

/-- `MockBroker.get_account_info`. -/
def MockBroker.get_account_info (b : MockBroker) : Except PyError AccountInfo :=
  if ¬ b.is_connected then .error (.brokerError "Mock broker not connected")
  else
    let position_value := (b.positions.map (fun p => p.2.market_value)).sum
    .ok { account_id := "MOCK_ACCOUNT_123"
          cash_balance := b.cash_balance
          buying_power := b.cash_balance * 2
          total_equity := b.cash_balance + position_value
          day_trades_remaining := some 3 }

/-- `MockBroker.set_market_price` (test hook). -/
def MockBroker.set_market_price (b : MockBroker) (symbol : String) (price : ℚ) :
    MockBroker :=
  { b with market_prices := alistInsert b.market_prices symbol price }

/-- `MockBroker.force_fill_order` (test hook); note that unlike the public
operations it has no connection check and silently returns on a terminal
order. -/
def MockBroker.force_fill_order (b : MockBroker) (broker_order_id : String)
    (fill_price? : Option ℚ) (now : ℚ) : MockBroker × Except PyError Unit :=
  match alistLookup b.orders broker_order_id with
  | none => (b, .error (.brokerError ("Order not found: " ++ broker_order_id)))
  | some order =>
    if order.is_terminal then (b, .ok ())
    else
      let fill_price :=
        match fill_price? with
        | some p => p
        | none => (alistLookup b.market_prices order.request.symbol).getD 100
      let remaining_qty := order.remaining_qty
      let fill : OrderFill :=
        { price := fill_price, qty := remaining_qty, timestamp := now, fill_id := none }
      let order' := order.add_fill fill now
      let b := { b with orders := alistInsert b.orders broker_order_id order' }
      let b := b.update_position order.request.symbol order.request.side
        remaining_qty fill_price
      let b :=
        if order.request.side = OrderSide.BUY then
          { b with cash_balance := b.cash_balance - (remaining_qty : ℚ) * fill_price }
        else
          { b with cash_balance := b.cash_balance + (remaining_qty : ℚ) * fill_price }
      (b, .ok ())

/-! ### Sequences of `MockBroker` operations -/

/-- One adapter operation together with its oracle inputs and the wall-clock
value its `time.time()` calls return. -/
inductive MockOp where
  | place (request : OrderRequest) (orc : PlaceOracle) (now : ℚ)
  | getOrd (broker_order_id : String) (orc : GetOracle) (now : ℚ)
  | cancel (broker_order_id : String) (now : ℚ)
  | forceFill (broker_order_id : String) (fill_price? : Option ℚ) (now : ℚ)
  | getPositions
  | getAccountInfo
  | setPrice (symbol : String) (price : ℚ)
  | connect
  | disconnect
deriving DecidableEq, Repr

/-- State effect of one operation (results are discarded; an operation that
raises leaves exactly the state the source leaves behind the raise). -/
def MockBroker.applyOp (b : MockBroker) : MockOp → MockBroker
  | .place request orc now => (b.place_order request orc now).1
  | .getOrd bid orc now => (b.get_order bid orc now).1
  | .cancel bid now => (b.cancel_order bid now).1
  | .forceFill bid p now => (b.force_fill_order bid p now).1
  | .getPositions => b
  | .getAccountInfo => b
  | .setPrice symbol price => b.set_market_price symbol price
  | .connect => b.connect
  | .disconnect => b.disconnect

def MockBroker.runOps (b : MockBroker) (ops : List MockOp) : MockBroker :=
  ops.foldl MockBroker.applyOp b

/-- An operation is valid when any `OrderRequest` it carries passed the
`__post_init__` validation (in Python an invalid request cannot be
constructed, so it can never reach `place_order`). -/
def MockOp.valid : MockOp → Prop
  | .place request _ _ => request.isValid = true
  | _ => True

/-- `place_order` / `get_order` operations only (the sequences that claim C8
quantifies over). -/
def MockOp.placeOrGet : MockOp → Prop
  | .place _ _ _ => True
  | .getOrd _ _ _ => True
  | _ => False

/-- Decimal digit value of a character, used to model Python `int(str)`. -/
def charVal10 (c : Char) : Option Nat :=
  if c = '0' then some 0 else if c = '1' then some 1
  else if c = '2' then some 2 else if c = '3' then some 3
  else if c = '4' then some 4 else if c = '5' then some 5
  else if c = '6' then some 6 else if c = '7' then some 7
  else if c = '8' then some 8 else if c = '9' then some 9 else none

def parseDigits : List Char → Nat → Option Nat
  | [], acc => some acc
  | c :: rest, acc =>
    match charVal10 c with
    | some d => parseDigits rest (10 * acc + d)
    | none => none

/-- Python `int(str)` on an optional minus sign followed by decimal digits,
as applied to broker order ids in `IBKRBroker.cancel_order`; `none` models
the `ValueError` for a non-numeric string. -/
def pyInt? (s : String) : Option Int :=
  match s.data with
  | [] => none
  | '-' :: rest =>
    if rest = [] then none
    else (parseDigits rest 0).map (fun n => -(n : Int))
  | l => (parseDigits l 0).map (fun n => (n : Int))

/-! ### `IBKRBroker` (`ibkr.py`)

The external `ib_insync.IB` connection object is modelled at its boundary:
`ibConnected` mirrors `self.ib.isConnected()`, `placedOrderIds` records the
order ids handed to `self.ib.placeOrder` (the venue-visible submissions), and
the status string the venue reports for a placement is an oracle argument.
Python's per-process `hash` is the `pyHash` parameter. -/

structure IBKRBroker where
  paper_trading : Bool
  client_id : Int
  connected : Bool
  ibConnected : Bool
  placedOrderIds : List Int
  orders : List (String × Order)
deriving DecidableEq, Repr

/-- `IBKRBroker.__init__`. -/
def mkIBKRBroker (paper_trading : Bool) (client_id : Int) : IBKRBroker :=
  { paper_trading := paper_trading
    client_id := client_id
    connected := false
    ibConnected := false
    placedOrderIds := []
    orders := [] }

def IBKRBroker.is_connected (b : IBKRBroker) : Bool :=
  b.connected && b.ibConnected

/-- `IBKRBroker.connect`: on success both flags are set; on failure
`_connected` is cleared and a `BrokerError` is raised. -/
def IBKRBroker.connect (b : IBKRBroker) (success : Bool) :
    IBKRBroker × Except PyError Unit :=
  if success then
    ({ b with connected := true, ibConnected := true }, .ok ())
  else
    ({ b with connected := false }, .error (.brokerError "Failed to connect to IBKR Gateway"))

/-- `IBKRBroker.disconnect`. -/
def IBKRBroker.disconnect (b : IBKRBroker) : IBKRBroker :=
  if b.connected then { b with ibConnected := false, connected := false } else b

/-- `IBKRBroker._map_order_status`. -/
def mapIBOrderStatus (ib_status : String) : OrderStatus :=
  if ib_status = "Submitted" then OrderStatus.NEW
  else if ib_status = "PendingSubmit" then OrderStatus.PENDING
  else if ib_status = "PreSubmitted" then OrderStatus.PENDING
  else if ib_status = "Filled" then OrderStatus.FILLED
  else if ib_status = "PartiallyFilled" then OrderStatus.PARTIAL
  else if ib_status = "Cancelled" then OrderStatus.CANCELLED
  else if ib_status = "Inactive" then OrderStatus.REJECTED
  else if ib_status = "ApiCancelled" then OrderStatus.CANCELLED
  else OrderStatus.NEW

/-- `IBKRBroker._map_order_type` raises for STOP / STOP_LIMIT. -/
def mapIBOrderType (request : OrderRequest) : Except PyError Unit :=
  match request.order_type with
  | OrderType.MARKET => .ok ()
  | OrderType.LIMIT => .ok ()
  | _ => .error (.brokerError "Unsupported order type")

/-- `IBKRBroker.place_order`: no idempotency lookup — every call maps the
request, re-derives `orderId = hash(client_order_id) % 1000000`, submits it to
the venue again, and stores a freshly constructed `Order` whose status comes
from the venue's reply to this call. -/
def IBKRBroker.place_order (b : IBKRBroker) (pyHash : String → Int)
    (request : OrderRequest) (tradeStatus : String) (now : ℚ) :
    IBKRBroker × Except PyError Order :=
  if ¬ b.is_connected then
    (b, .error (.brokerError "Not connected to IBKR Gateway"))
  else
    match mapIBOrderType request with
    | .error _ => (b, .error (.brokerError "Failed to place order"))
    | .ok _ =>
      let orderId := pyHash request.client_order_id % 1000000
      let b := { b with placedOrderIds := b.placedOrderIds ++ [orderId] }
      let order := mkOrder (toString orderId) request
        (mapIBOrderStatus tradeStatus) none now
      ({ b with orders := alistInsert b.orders order.broker_order_id order },
       .ok order)

/-- `IBKRBroker.get_order` returns the cached order; there is no
`is_connected` check in the source. -/
def IBKRBroker.get_order (b : IBKRBroker) (broker_order_id : String) :
    Except PyError Order :=
  match alistLookup b.orders broker_order_id with
  | some order => .ok order
  | none => .error (.brokerError ("Order " ++ broker_order_id ++ " not found"))

/-- `IBKRBroker.cancel_order`: there is no terminal-state check — any cached
order whose id parses as an int is marked CANCELLED. -/
def IBKRBroker.cancel_order (b : IBKRBroker) (broker_order_id : String)
    (now : ℚ) : IBKRBroker × Except PyError Order :=
  if ¬ b.is_connected then
    (b, .error (.brokerError "Not connected to IBKR Gateway"))
  else
    match alistLookup b.orders broker_order_id with
    | none => (b, .error (.brokerError ("Failed to cancel order " ++ broker_order_id)))
    | some order =>
      match pyInt? broker_order_id with
      | none => (b, .error (.brokerError ("Failed to cancel order " ++ broker_order_id)))
      | some _ =>
        let order := { order with status := OrderStatus.CANCELLED, updated_at := now }
        ({ b with orders := alistInsert b.orders broker_order_id order }, .ok order)

/-- `IBKRBroker.get_positions`; the venue's position list is an oracle. -/
def IBKRBroker.get_positions (b : IBKRBroker) (ibPositions : List Position) :
    Except PyError (List Position) :=
  if ¬ b.is_connected then .error (.brokerError "Not connected to IBKR Gateway")
  else .ok ibPositions

/-- `IBKRBroker.get_account_info`; the venue's parsed account summary is an
oracle. -/
def IBKRBroker.get_account_info (b : IBKRBroker) (ibAccount : AccountInfo) :
    Except PyError AccountInfo :=
  if ¬ b.is_connected then .error (.brokerError "Not connected to IBKR Gateway")
  else .ok ibAccount

instance {ε α : Type} [DecidableEq ε] [DecidableEq α] : DecidableEq (Except ε α)
  | .error a, .error b =>
    if h : a = b then isTrue (by rw [h]) else
      isFalse (by intro hh; injection hh; exact h (by assumption))
  | .error _, .ok _ => isFalse (fun hh => Except.noConfusion hh)
  | .ok _, .error _ => isFalse (fun hh => Except.noConfusion hh)
  | .ok a, .ok b =>
    if h : a = b then isTrue (by rw [h]) else
      isFalse (by intro hh; injection hh; exact h (by assumption))

/-! ### Association-list lemmas -/

theorem alistLookup_insert_self {α : Type} (m : List (String × α)) (k : String)
    (v : α) : alistLookup (alistInsert m k v) k = some v := by
  induction m with
  | nil => simp [alistInsert, alistLookup]
  | cons hd tl ih =>
    obtain ⟨k', v'⟩ := hd
    by_cases h : k' = k
    · simp [alistInsert, alistLookup, h]
    · simp [alistInsert, alistLookup, h, ih]

theorem alistLookup_insert_ne {α : Type} (m : List (String × α)) (k k' : String)
    (v : α) (h : k' ≠ k) :
    alistLookup (alistInsert m k v) k' = alistLookup m k' := by
  induction m with
  | nil => simp [alistInsert, alistLookup, Ne.symm h]
  | cons hd tl ih =>
    obtain ⟨k₀, v₀⟩ := hd
    by_cases hk : k₀ = k
    · subst hk
      simp [alistInsert, alistLookup, Ne.symm h]
    · by_cases hk' : k₀ = k' <;> simp [alistInsert, alistLookup, hk, hk', h, ih]

/-! ### Injectivity of the minted broker order ids

`place_order` mints `f"MOCK_{n}"` from a strictly increasing counter; the
freshness of these keys reduces to the injectivity of the decimal
representation `Nat.repr`, proved here by re-evaluating the digit string. -/

def digitVal (c : Char) : Nat :=
  c.toNat - '0'.toNat

def digitsValFrom (a : Nat) (l : List Char) : Nat :=
  l.foldl (fun acc c => 10 * acc + digitVal c) a

theorem digitsValFrom_nil (a : Nat) : digitsValFrom a [] = a := rfl

theorem digitsValFrom_cons (a : Nat) (c : Char) (l : List Char) :
    digitsValFrom a (c :: l) = digitsValFrom (10 * a + digitVal c) l := rfl

theorem digitVal_digitChar (n : Nat) (h : n < 10) :
    digitVal (Nat.digitChar n) = n := by
  interval_cases n <;> rfl

theorem digitsValFrom_toDigitsCore (fuel : Nat) :
    ∀ n ds, n < fuel →
      digitsValFrom 0 (Nat.toDigitsCore 10 fuel n ds) = digitsValFrom n ds := by
  induction fuel with
  | zero => intro n ds h; omega
  | succ fuel ih =>
    intro n ds h
    rw [Nat.toDigitsCore]
    by_cases hz : n / 10 = 0
    · rw [if_pos hz]
      have hn : n < 10 := by omega
      rw [digitsValFrom_cons, digitVal_digitChar _ (Nat.mod_lt _ (by omega)),
        Nat.mod_eq_of_lt hn]
      have h0 : 10 * 0 + n = n := by omega
      rw [h0]
    · have hlt : n / 10 < fuel := by
        have h1 : n / 10 < n := Nat.div_lt_self (by omega) (by omega)
        omega
      rw [if_neg hz, ih _ _ hlt, digitsValFrom_cons,
        digitVal_digitChar _ (Nat.mod_lt _ (by omega)), Nat.div_add_mod]

theorem digitsValFrom_toDigits (n : Nat) :
    digitsValFrom 0 (Nat.toDigits 10 n) = n := by
  rw [Nat.toDigits, digitsValFrom_toDigitsCore (n + 1) n [] (Nat.lt_succ_self n)]
  rfl

theorem natRepr_injective {m n : Nat} (h : Nat.repr m = Nat.repr n) : m = n := by
  have hd : Nat.toDigits 10 m = Nat.toDigits 10 n := by
    have := congrArg String.data h
    simpa [Nat.repr, List.asString] using this
  calc m = digitsValFrom 0 (Nat.toDigits 10 m) := (digitsValFrom_toDigits m).symm
    _ = digitsValFrom 0 (Nat.toDigits 10 n) := by rw [hd]
    _ = n := digitsValFrom_toDigits n

theorem mkBrokerOrderId_injective {m n : Nat}
    (h : mkBrokerOrderId m = mkBrokerOrderId n) : m = n := by
  apply natRepr_injective
  have := congrArg String.data h
  simp only [mkBrokerOrderId, String.data_append] at this
  have := List.append_cancel_left this
  exact String.ext this

theorem alistLookup_eq_none_of_not_mem {α : Type} (m : List (String × α))
    (k : String) (h : k ∉ m.map Prod.fst) : alistLookup m k = none := by
  induction m with
  | nil => rfl
  | cons hd tl ih =>
    obtain ⟨k₀, v₀⟩ := hd
    simp only [List.map_cons, List.mem_cons, not_or] at h
    have hne : k₀ ≠ k := fun hk => h.1 hk.symm
    simp [alistLookup, hne, ih h.2]

theorem alistLookup_erase_self_of_nodup {α : Type} (m : List (String × α))
    (k : String) (h : (m.map Prod.fst).Nodup) :
    alistLookup (alistErase m k) k = none := by
  induction m with
  | nil => rfl
  | cons hd tl ih =>
    obtain ⟨k₀, v₀⟩ := hd
    simp only [List.map_cons, List.nodup_cons] at h
    by_cases hk : k₀ = k
    · subst hk
      simpa [alistErase] using alistLookup_eq_none_of_not_mem tl k₀ h.1
    · simp [alistErase, alistLookup, hk, ih h.2]

/-! ### Field lemmas for `Order.add_fill` -/

theorem add_fill_fills (o : Order) (f : OrderFill) (now : ℚ) :
    (o.add_fill f now).fills = o.fills ++ [f] := rfl

theorem add_fill_filled_qty (o : Order) (f : OrderFill) (now : ℚ) :
    (o.add_fill f now).filled_qty = o.filled_qty + f.qty := rfl

theorem add_fill_request (o : Order) (f : OrderFill) (now : ℚ) :
    (o.add_fill f now).request = o.request := rfl

theorem add_fill_avg (o : Order) (f : OrderFill) (now : ℚ) :
    (o.add_fill f now).avg_fill_price =
      some (fillsValue (o.fills ++ [f]) / ((o.filled_qty + f.qty : Int) : ℚ)) := rfl

theorem add_fill_status (o : Order) (f : OrderFill) (now : ℚ) :
    (o.add_fill f now).status =
      if o.request.qty ≤ o.filled_qty + f.qty then OrderStatus.FILLED
      else if 0 < o.filled_qty + f.qty then OrderStatus.PARTIAL
      else o.status := rfl

/-! ### Fill sequences (claim C4) -/

/-- Apply a sequence of fills (each with the `time.time()` value seen while
applying it) to an order through `Order.add_fill`. -/
def Order.applyFills (o : Order) (fs : List (OrderFill × ℚ)) : Order :=
  fs.foldl (fun acc fq => acc.add_fill fq.1 fq.2) o

/-- Total quantity `Σ f.qty` over a list of fills. -/
def fillsQty (fills : List OrderFill) : Int :=
  (fills.map OrderFill.qty).sum

theorem applyFills_spec (fs : List (OrderFill × ℚ)) :
    ∀ o : Order, 0 ≤ o.filled_qty → (∀ f ∈ fs, 0 < f.1.qty) →
      (o.applyFills fs).request = o.request ∧
      (o.applyFills fs).fills = o.fills ++ fs.map Prod.fst ∧
      (o.applyFills fs).filled_qty = o.filled_qty + fillsQty (fs.map Prod.fst) ∧
      (fs ≠ [] →
        (o.applyFills fs).avg_fill_price =
          some (fillsValue (o.applyFills fs).fills /
            ((o.applyFills fs).filled_qty : ℚ)) ∧
        (o.applyFills fs).status =
          (if o.request.qty ≤ (o.applyFills fs).filled_qty then OrderStatus.FILLED
           else OrderStatus.PARTIAL)) := by
  induction fs with
  | nil =>
    intro o h0 hpos
    simp [Order.applyFills, fillsQty]
  | cons ft rest ih =>
    intro o h0 hpos
    obtain ⟨f, t⟩ := ft
    have hf : 0 < f.qty := hpos (f, t) (List.mem_cons_self _ _)
    have h0' : 0 ≤ (o.add_fill f t).filled_qty := by
      rw [add_fill_filled_qty]; omega
    have hpos' : ∀ g ∈ rest, 0 < g.1.qty :=
      fun g hg => hpos g (List.mem_cons_of_mem _ hg)
    have happ : o.applyFills ((f, t) :: rest) = (o.add_fill f t).applyFills rest := rfl
    obtain ⟨hreq, hfills, hfq, hlast⟩ := ih (o.add_fill f t) h0' hpos'
    rw [happ]
    refine ⟨by rw [hreq, add_fill_request], ?_, ?_, ?_⟩
    · rw [hfills, add_fill_fills, List.map_cons, List.append_assoc]
      rfl
    · rw [hfq, add_fill_filled_qty, List.map_cons]
      simp [fillsQty]
      ring
    · intro _
      rcases List.eq_nil_or_concat rest with hrest | _
      · subst hrest
        have hres : (o.add_fill f t).applyFills [] = o.add_fill f t := rfl
        rw [hres]
        refine ⟨by rw [add_fill_avg, add_fill_fills, add_fill_filled_qty], ?_⟩
        rw [add_fill_status, add_fill_filled_qty]
        have hposfq : 0 < o.filled_qty + f.qty := by omega
        by_cases hc : o.request.qty ≤ o.filled_qty + f.qty
        · rw [if_pos hc, if_pos hc]
        · rw [if_neg hc, if_neg hc, if_pos hposfq]
      · have hne : rest ≠ [] := by
          rintro rfl
          rename_i hcon
          obtain ⟨l, a, h⟩ := hcon
          exact List.concat_ne_nil a l h.symm
        obtain ⟨havg, hstat⟩ := hlast hne
        refine ⟨havg, ?_⟩
        rw [hstat, add_fill_request]

/-- C4: over any sequence of positive fills applied through `add_fill` to a
fresh order, `avg_fill_price` is the quantity-weighted mean
`Σ (price·qty) / Σ qty` over all fills applied so far, and the status becomes
FILLED iff `filled_qty ≥ request.qty`, else PARTIAL. -/
theorem c4_fill_aggregation (o : Order) (fs : List (OrderFill × ℚ))
    (hfills : o.fills = []) (hfq : o.filled_qty = 0)
    (hpos : ∀ f ∈ fs, 0 < f.1.qty) (hne : fs ≠ []) :
    (o.applyFills fs).filled_qty = fillsQty (fs.map Prod.fst) ∧
    (o.applyFills fs).avg_fill_price =
      some (fillsValue (fs.map Prod.fst) / (fillsQty (fs.map Prod.fst) : ℚ)) ∧
    (o.applyFills fs).status =
      (if o.request.qty ≤ fillsQty (fs.map Prod.fst) then OrderStatus.FILLED
       else OrderStatus.PARTIAL) := by
  obtain ⟨hreq, hfl, hq, hlast⟩ := applyFills_spec fs o (by omega) hpos
  obtain ⟨havg, hstat⟩ := hlast hne
  have hq' : (o.applyFills fs).filled_qty = fillsQty (fs.map Prod.fst) := by
    rw [hq, hfq]; ring
  refine ⟨hq', ?_, by rw [hstat, hq']⟩
  rw [havg, hq', hfl, hfills, List.nil_append]

/-- Witness for C4 at the spec's example: fills (price 10, qty 2) then
(price 20, qty 2) give an average fill price of 15. -/
def exampleOrderC4 : Order :=
  mkOrder "MOCK_1000"
    { client_order_id := "c4", symbol := "AAPL", qty := 4, side := OrderSide.BUY,
      order_type := OrderType.MARKET, limit_price := none, stop_price := none,
      tif := TimeInForce.DAY }
    OrderStatus.NEW none 0

theorem c4_fill_aggregation_witness :
    (exampleOrderC4.applyFills
      [({ price := 10, qty := 2, timestamp := 1, fill_id := none }, 1),
       ({ price := 20, qty := 2, timestamp := 2, fill_id := none }, 2)]).avg_fill_price
      = some 15 := by
  have h := c4_fill_aggregation exampleOrderC4
    [({ price := 10, qty := 2, timestamp := 1, fill_id := none }, 1),
     ({ price := 20, qty := 2, timestamp := 2, fill_id := none }, 2)]
    rfl rfl (by decide) (by decide)
  refine h.2.1.trans ?_
  norm_num [fillsValue, fillsQty]

/-- C6: `OrderRequest` construction fails with a validation error if and only
if qty ≤ 0, or a LIMIT/STOP_LIMIT request lacks `limit_price`, or a
STOP/STOP_LIMIT request lacks `stop_price`; otherwise it succeeds and returns
the request unchanged. -/
theorem c6_request_validation (r : OrderRequest) :
    ((∃ e, r.post_init = Except.error e) ↔
      (r.qty ≤ 0 ∨
        ((r.order_type = OrderType.LIMIT ∨ r.order_type = OrderType.STOP_LIMIT)
          ∧ r.limit_price = none) ∨
        ((r.order_type = OrderType.STOP ∨ r.order_type = OrderType.STOP_LIMIT)
          ∧ r.stop_price = none))) ∧
    (r.post_init = Except.ok r ↔
      ¬ (r.qty ≤ 0 ∨
        ((r.order_type = OrderType.LIMIT ∨ r.order_type = OrderType.STOP_LIMIT)
          ∧ r.limit_price = none) ∨
        ((r.order_type = OrderType.STOP ∨ r.order_type = OrderType.STOP_LIMIT)
          ∧ r.stop_price = none))) := by
  unfold OrderRequest.post_init
  split_ifs with h1 h2 h3 <;> constructor <;> simp_all

/-- Witness for C6: a LIMIT request without a `limit_price` is rejected. -/
theorem c6_request_validation_witness :
    ∃ e, OrderRequest.post_init
      { client_order_id := "c6", symbol := "AAPL", qty := 5, side := OrderSide.BUY,
        order_type := OrderType.LIMIT, limit_price := none, stop_price := none,
        tif := TimeInForce.DAY } = Except.error e :=
  (c6_request_validation _).1.mpr (by decide)

/-- C10: on a broker with a positive partial-fill rate, a one-share order
that draws the partial-fill branch reaches `random.randint(1, 0)`, whose
`ValueError` (not a `BrokerError`) escapes `place_order`. -/
theorem c10_qty_one_partial_fill_valueerror (b : MockBroker) (r : OrderRequest)
    (orc : PlaceOracle) (now : ℚ)
    (hconn : b.is_connected = true)
    (hfresh : alistLookup b.client_order_map r.client_order_id = none)
    (hqty : r.qty = 1) (htype : r.order_type = OrderType.MARKET)
    (hrej : b.rejection_rate ≤ orc.rejectDraw)
    (hpart : orc.fill.partDraw < b.partial_fill_rate) :
    (b.place_order r orc now).2 =
      Except.error (PyError.valueError "empty range for randrange") := by
  have hsim : ∀ (b' : MockBroker) (o : Order),
      b'.partial_fill_rate = b.partial_fill_rate → o.request = r →
      b'.simulate_fill o orc.fill now =
        Except.error (PyError.valueError "empty range for randrange") := by
    intro b' o hb' ho
    simp only [MockBroker.simulate_fill, fillPriceFor, ho, htype, hb',
      if_pos hpart, hqty, randint]
    norm_num
  simp only [MockBroker.place_order, hconn, Bool.not_true, Bool.false_eq_true,
    not_false_eq_true, reduceIte, hfresh, if_neg (not_lt.mpr hrej)]
  rw [hsim { b with order_counter := b.order_counter + 1 }
    (mkOrder (mkBrokerOrderId b.order_counter) r OrderStatus.NEW none now) rfl rfl]
  rfl

/-- Witness for C10: concrete broker with `partial_fill_rate = 1/2` and a
one-share MARKET order. -/
theorem c10_qty_one_partial_fill_valueerror_witness :
    (((mkMockBroker true 0 (1/2) 100000).connect).place_order
      { client_order_id := "c10", symbol := "AAPL", qty := 1,
        side := OrderSide.BUY, order_type := OrderType.MARKET,
        limit_price := none, stop_price := none, tif := TimeInForce.DAY }
      { rejectDraw := 1, fill := { jitter := 0, partDraw := 0, partQty := 0 } }
      1).2 =
      Except.error (PyError.valueError "empty range for randrange") :=
  c10_qty_one_partial_fill_valueerror _ _ _ _ rfl rfl rfl rfl
    (by norm_num [mkMockBroker, MockBroker.connect])
    (by norm_num [mkMockBroker, MockBroker.connect])

/-- C2 fails on the code: a BUY fill that covers part of a short position
re-blends `avg_cost` instead of leaving it unchanged.  Starting with no
position, a SELL fill of 10 @ 100 opens a short (qty = −10, avg_cost = 100);
a BUY fill of 5 @ 120 reduces the position's magnitude, so by the claim
avg_cost must remain 100 — the code stores avg_cost 80. -/
theorem c2_counterexample :
    alistLookup (((mkMockBroker true 0 0 100000).update_position "AAPL"
        OrderSide.SELL 10 100).update_position "AAPL"
        OrderSide.BUY 5 120).positions "AAPL" =
      some { symbol := "AAPL", qty := -5, avg_cost := 80,
             market_value := 900, unrealized_pnl := -500 } ∧
    (80 : ℚ) ≠ 100 := by
  constructor
  · norm_num [MockBroker.update_position, mkMockBroker, alistLookup,
      alistInsert, alistErase, Position.mk.injEq]
  · norm_num

/-- C2 amended to what `_update_position` actually does: a fill on a symbol
with no position opens one at the fill price (negated quantity for SELL); on
an existing position a BUY always re-blends the average cost
`(old_qty·old_avg + fill_qty·price) / new_qty` — including when the BUY
reduces or covers a short — while a SELL never changes the average cost —
including when the SELL opens or extends a short; a position whose quantity
reaches exactly zero is removed. -/
theorem c2_update_position_rule (b : MockBroker) (s : String) (q : Int) (p : ℚ)
    (hnodup : (b.positions.map Prod.fst).Nodup) :
    (alistLookup b.positions s = none →
      (∃ pos, alistLookup (b.update_position s OrderSide.BUY q p).positions s
          = some pos ∧ pos.qty = q ∧ pos.avg_cost = p) ∧
      (∃ pos, alistLookup (b.update_position s OrderSide.SELL q p).positions s
          = some pos ∧ pos.qty = -q ∧ pos.avg_cost = p)) ∧
    (∀ pos, alistLookup b.positions s = some pos → pos.qty ≠ 0 →
      ((pos.qty + q = 0 →
        alistLookup (b.update_position s OrderSide.BUY q p).positions s = none) ∧
       (pos.qty + q ≠ 0 →
        ∃ pos', alistLookup (b.update_position s OrderSide.BUY q p).positions s
            = some pos' ∧ pos'.qty = pos.qty + q ∧
          pos'.avg_cost = ((pos.qty : ℚ) * pos.avg_cost + (q : ℚ) * p)
            / ((pos.qty + q : Int) : ℚ)) ∧
       (pos.qty - q = 0 →
        alistLookup (b.update_position s OrderSide.SELL q p).positions s = none) ∧
       (pos.qty - q ≠ 0 →
        ∃ pos', alistLookup (b.update_position s OrderSide.SELL q p).positions s
            = some pos' ∧ pos'.qty = pos.qty - q ∧
          pos'.avg_cost = pos.avg_cost))) := by
  constructor
  · intro hnone
    constructor
    · simp only [MockBroker.update_position, hnone]
      exact ⟨_, alistLookup_insert_self _ _ _, rfl, rfl⟩
    · simp only [MockBroker.update_position, hnone]
      exact ⟨_, alistLookup_insert_self _ _ _, rfl, rfl⟩
  · intro pos hlook hq0
    refine ⟨?_, ?_, ?_, ?_⟩
    · intro hzero
      simp only [MockBroker.update_position, hlook, if_neg hq0, ne_eq, hzero,
        not_true_eq_false, reduceIte, if_pos hzero]
      exact alistLookup_erase_self_of_nodup _ _ hnodup
    · intro hnz
      simp only [MockBroker.update_position, hlook, if_neg hq0, ne_eq, hnz,
        not_false_eq_true, reduceIte, if_neg hnz]
      exact ⟨_, alistLookup_insert_self _ _ _, rfl, rfl⟩
    · intro hzero
      simp only [MockBroker.update_position, hlook, hzero, reduceIte,
        if_pos hzero]
      exact alistLookup_erase_self_of_nodup _ _ hnodup
    · intro hnz
      simp only [MockBroker.update_position, hlook, ne_eq, hnz, reduceIte,
        if_neg hnz]
      exact ⟨_, alistLookup_insert_self _ _ _, rfl, rfl⟩

/-- Broker used to witness C2's amended rule: an existing short position of
−10 shares at average cost 100. -/
def shortPos : Position :=
  { symbol := "AAPL"
    qty := -10
    avg_cost := 100
    market_value := 1000
    unrealized_pnl := 0 }

def c2Broker : MockBroker :=
  { mkMockBroker true 0 0 100000 with positions := [("AAPL", shortPos)] }

theorem c2_update_position_rule_witness :
    ∃ pos', alistLookup (c2Broker.update_position "AAPL" OrderSide.BUY 5
        120).positions "AAPL" = some pos' ∧
      pos'.qty = -5 ∧ pos'.avg_cost = 80 := by
  have h := (c2_update_position_rule c2Broker "AAPL" 5 120
    (by simp [c2Broker, mkMockBroker])).2 shortPos rfl (by decide)
  obtain ⟨pos', hl, hq, havg⟩ := h.2.1 (by decide)
  refine ⟨pos', hl, ?_, ?_⟩
  · rw [hq]; decide
  · rw [havg]; norm_num [shortPos]

/-- C9: cancelling a non-terminal order changes only its status (to
CANCELLED) and `updated_at`; `filled_qty`, `avg_fill_price`, the fills list,
the originating request and `broker_order_id` are all unchanged, so only the
remaining quantity is voided. -/
theorem c9_cancel_is_frame_preserving (b : MockBroker) (bid : String)
    (o : Order) (now : ℚ)
    (hconn : b.is_connected = true)
    (hlook : alistLookup b.orders bid = some o)
    (hterm : o.is_terminal = false) :
    ∃ o', b.cancel_order bid now =
        ({ b with orders := alistInsert b.orders bid o' }, Except.ok o') ∧
      o'.status = OrderStatus.CANCELLED ∧
      o'.updated_at = now ∧
      o'.filled_qty = o.filled_qty ∧
      o'.avg_fill_price = o.avg_fill_price ∧
      o'.fills = o.fills ∧
      o'.request = o.request ∧
      o'.broker_order_id = o.broker_order_id ∧
      o'.created_at = o.created_at ∧
      o'.reject_reason = o.reject_reason := by
  refine ⟨{ o with status := OrderStatus.CANCELLED, updated_at := now },
    ?_, rfl, rfl, rfl, rfl, rfl, rfl, rfl, rfl, rfl⟩
  simp only [MockBroker.cancel_order, hconn, Bool.not_true, Bool.false_eq_true,
    not_false_eq_true, reduceIte, hlook, hterm]
  simp

/-- Broker used to witness C9/C3: a connected `MockBroker` holding one
partially filled order and one filled (terminal) order. -/
def partialOrder : Order :=
  { broker_order_id := "MOCK_1000"
    request :=
      { client_order_id := "c9", symbol := "AAPL", qty := 10,
        side := OrderSide.BUY, order_type := OrderType.MARKET,
        limit_price := none, stop_price := none, tif := TimeInForce.DAY }
    status := OrderStatus.PARTIAL
    filled_qty := 5
    avg_fill_price := some 180
    fills := [{ price := 180, qty := 5, timestamp := 1, fill_id := none }]
    created_at := 1
    updated_at := 1
    reject_reason := none }

def filledOrder : Order :=
  { broker_order_id := "MOCK_1001"
    request :=
      { client_order_id := "c3", symbol := "MSFT", qty := 2,
        side := OrderSide.SELL, order_type := OrderType.MARKET,
        limit_price := none, stop_price := none, tif := TimeInForce.DAY }
    status := OrderStatus.FILLED
    filled_qty := 2
    avg_fill_price := some 380
    fills := [{ price := 380, qty := 2, timestamp := 1, fill_id := none }]
    created_at := 1
    updated_at := 1
    reject_reason := none }

def cancelBroker : MockBroker :=
  { (mkMockBroker true 0 0 100000).connect with
      orders := [("MOCK_1000", partialOrder), ("MOCK_1001", filledOrder)] }

theorem c9_cancel_is_frame_preserving_witness :
    ∃ o', (cancelBroker.cancel_order "MOCK_1000" 2).2 = Except.ok o' ∧
      o'.status = OrderStatus.CANCELLED ∧ o'.filled_qty = 5 ∧
      o'.fills = [{ price := 180, qty := 5, timestamp := 1, fill_id := none }] := by
  obtain ⟨o', heq, hst, hupd, hfq, havg, hfl, hrest⟩ :=
    c9_cancel_is_frame_preserving cancelBroker "MOCK_1000" partialOrder 2
      rfl rfl rfl
  exact ⟨o', congrArg Prod.snd heq, hst, hfq.trans rfl, hfl.trans rfl⟩

/-- C3 amended: `MockBroker.cancel_order` raises an invalid-state
`BrokerError` on a terminal order leaving the state unchanged and cancels a
non-terminal order, but `IBKRBroker.cancel_order` performs no terminal-state
check: while connected it marks any cached order CANCELLED — terminal or not
— instead of raising. -/
theorem c3_cancel_terminal_check (b : MockBroker) (ib : IBKRBroker)
    (bid ibid : String) (o oib : Order) (now now' : ℚ)
    (hconn : b.is_connected = true)
    (hlook : alistLookup b.orders bid = some o)
    (hibconn : ib.is_connected = true)
    (hiblook : alistLookup ib.orders ibid = some oib)
    (hibid : (pyInt? ibid).isSome = true) :
    (o.is_terminal = true →
      b.cancel_order bid now =
        (b, Except.error (PyError.brokerError "Cannot cancel order in terminal state"))) ∧
    (o.is_terminal = false →
      ∃ o', b.cancel_order bid now =
          ({ b with orders := alistInsert b.orders bid o' }, Except.ok o') ∧
        o'.status = OrderStatus.CANCELLED) ∧
    (ib.cancel_order ibid now' =
      ({ ib with
          orders := alistInsert ib.orders ibid
              ({ oib with status := OrderStatus.CANCELLED, updated_at := now' }) },
       Except.ok ({ oib with status := OrderStatus.CANCELLED, updated_at := now' }))) := by
  refine ⟨?_, ?_, ?_⟩
  · intro hterm
    simp only [MockBroker.cancel_order, hconn, Bool.not_true,
      Bool.false_eq_true, not_false_eq_true, reduceIte, hlook, hterm]
    simp
  · intro hterm
    refine ⟨{ o with status := OrderStatus.CANCELLED, updated_at := now }, ?_, rfl⟩
    simp only [MockBroker.cancel_order, hconn, Bool.not_true,
      Bool.false_eq_true, not_false_eq_true, reduceIte, hlook, hterm]
    simp
  · obtain ⟨n, hn⟩ := Option.isSome_iff_exists.mp hibid
    simp only [IBKRBroker.cancel_order, hibconn, Bool.not_true,
      Bool.false_eq_true, not_false_eq_true, reduceIte, hiblook, hn]
    simp

/-- Request and hash used by the concrete IBKR traces. -/
def reqA : OrderRequest :=
  { client_order_id := "c1"
    symbol := "AAPL"
    qty := 5
    side := OrderSide.BUY
    order_type := OrderType.MARKET
    limit_price := none
    stop_price := none
    tif := TimeInForce.DAY }

def hashA : String → Int := fun _ => 12345

/-- Connected IBKR broker holding one FILLED (terminal) order. -/
def ibFilled : IBKRBroker :=
  ((((mkIBKRBroker true 1).connect true).1).place_order hashA reqA "Filled" 1).1

/-- C3 fails on `IBKRBroker`: cancelling a FILLED (terminal) order does not
raise an invalid-state error — it succeeds and overwrites the status with
CANCELLED. -/
theorem c3_counterexample :
    alistLookup ibFilled.orders "12345" =
      some (mkOrder "12345" reqA OrderStatus.FILLED none 1) ∧
    (mkOrder "12345" reqA OrderStatus.FILLED none 1).is_terminal = true ∧
    (ibFilled.cancel_order "12345" 2).2 =
      Except.ok { mkOrder "12345" reqA OrderStatus.FILLED none 1 with
        status := OrderStatus.CANCELLED, updated_at := 2 } :=
  ⟨rfl, rfl, rfl⟩

theorem c3_cancel_terminal_check_witness :
    (cancelBroker.cancel_order "MOCK_1001" 2).2 =
      Except.error (PyError.brokerError "Cannot cancel order in terminal state") := by
  have h := (c3_cancel_terminal_check cancelBroker ibFilled "MOCK_1001"
    "12345" filledOrder (mkOrder "12345" reqA OrderStatus.FILLED none 1)
    2 2 rfl rfl rfl rfl rfl).1 rfl
  exact congrArg Prod.snd h

/-- Disconnected IBKR broker still holding a cached order (reached by
connect → place_order → disconnect). -/
def ibkrDisc : IBKRBroker :=
  (((((mkIBKRBroker true 1).connect true).1).place_order hashA reqA
    "Submitted" 1).1).disconnect

/-- C7 fails on `IBKRBroker.get_order`: with the connection down it does not
raise a not-connected error but happily returns the cached order. -/
theorem c7_counterexample :
    ibkrDisc.is_connected = false ∧
    ibkrDisc.get_order "12345" =
      Except.ok (mkOrder "12345" reqA OrderStatus.NEW none 1) :=
  ⟨rfl, rfl⟩

/-- C7 amended: every stateful `MockBroker` operation and the IBKR
place/cancel/positions/account operations raise a not-connected
`BrokerError` and leave the state unchanged when called while disconnected;
the exception is `IBKRBroker.get_order`, which never consults the connection
and just reads its cache. -/
theorem c7_not_connected_checks (b : MockBroker) (ib : IBKRBroker)
    (r : OrderRequest) (bid : String) (orcP : PlaceOracle) (orcG : GetOracle)
    (now : ℚ) (pyHash : String → Int) (ts : String) (ibPos : List Position)
    (ibAcc : AccountInfo)
    (hb : b.is_connected = false) (hib : ib.is_connected = false) :
    b.place_order r orcP now =
      (b, Except.error (PyError.brokerError "Mock broker not connected")) ∧
    b.get_order bid orcG now =
      (b, Except.error (PyError.brokerError "Mock broker not connected")) ∧
    b.cancel_order bid now =
      (b, Except.error (PyError.brokerError "Mock broker not connected")) ∧
    b.get_positions =
      Except.error (PyError.brokerError "Mock broker not connected") ∧
    b.get_account_info =
      Except.error (PyError.brokerError "Mock broker not connected") ∧
    ib.place_order pyHash r ts now =
      (ib, Except.error (PyError.brokerError "Not connected to IBKR Gateway")) ∧
    ib.cancel_order bid now =
      (ib, Except.error (PyError.brokerError "Not connected to IBKR Gateway")) ∧
    ib.get_positions ibPos =
      Except.error (PyError.brokerError "Not connected to IBKR Gateway") ∧
    ib.get_account_info ibAcc =
      Except.error (PyError.brokerError "Not connected to IBKR Gateway") ∧
    ib.get_order bid =
      (match alistLookup ib.orders bid with
        | some o => Except.ok o
        | none =>
          Except.error (PyError.brokerError ("Order " ++ bid ++ " not found"))) := by
  refine ⟨?_, ?_, ?_, ?_, ?_, ?_, ?_, ?_, ?_, rfl⟩ <;>
    simp [MockBroker.place_order, MockBroker.get_order, MockBroker.cancel_order,
      MockBroker.get_positions, MockBroker.get_account_info,
      IBKRBroker.place_order, IBKRBroker.cancel_order, IBKRBroker.get_positions,
      IBKRBroker.get_account_info, hb, hib]

theorem c7_not_connected_checks_witness :
    ((mkMockBroker true 0 0 100000).place_order reqA
      { rejectDraw := 1, fill := { jitter := 0, partDraw := 1, partQty := 1 } }
      1).2 = Except.error (PyError.brokerError "Mock broker not connected") ∧
    ibkrDisc.get_order "12345" =
      Except.ok (mkOrder "12345" reqA OrderStatus.NEW none 1) := by
  have h := c7_not_connected_checks (mkMockBroker true 0 0 100000) ibkrDisc
    reqA "12345"
    { rejectDraw := 1, fill := { jitter := 0, partDraw := 1, partQty := 1 } }
    { refreshDraw := 1, fill := { jitter := 0, partDraw := 1, partQty := 1 } }
    1 hashA "Submitted" []
    { account_id := "A", cash_balance := 0, buying_power := 0,
      total_equity := 0, day_trades_remaining := none }
    rfl rfl
  refine ⟨congrArg Prod.snd h.1, ?_⟩
  rw [h.2.2.2.2.2.2.2.2.2]
  rfl

/-- C1: the code contradicts the `BrokerAdapter.place_order` contract
("must be idempotent on client_order_id").  On `IBKRBroker`, a second
`place_order` with the same `client_order_id` re-submits the order to the
venue (`ib.placeOrder` runs again: two entries in `placedOrderIds`) and
returns a freshly built `Order` reflecting the latest venue reply (here
FILLED) instead of the order created by the first call (NEW). -/
theorem c1_ibkr_place_order_not_idempotent :
    ((((mkIBKRBroker true 1).connect true).1).place_order hashA reqA
      "Submitted" 1).2 = Except.ok (mkOrder "12345" reqA OrderStatus.NEW none 1) ∧
    (((((mkIBKRBroker true 1).connect true).1).place_order hashA reqA
      "Submitted" 1).1.place_order hashA reqA "Filled" 2).2 =
      Except.ok (mkOrder "12345" reqA OrderStatus.FILLED none 2) ∧
    mkOrder "12345" reqA OrderStatus.FILLED none 2 ≠
      mkOrder "12345" reqA OrderStatus.NEW none 1 ∧
    (((((mkIBKRBroker true 1).connect true).1).place_order hashA reqA
      "Submitted" 1).1.place_order hashA reqA "Filled" 2).1.placedOrderIds =
      [12345, 12345] :=
  ⟨rfl, rfl, fun h => by simpa [mkOrder] using congrArg Order.status h, rfl⟩

/-! ### Lemmas about `_simulate_fill` and `_update_position` state effects -/

theorem isValid_qty_pos (r : OrderRequest) (h : r.isValid = true) : 0 < r.qty := by
  by_contra hq
  push_neg at hq
  unfold OrderRequest.isValid OrderRequest.post_init at h
  split_ifs at h <;> simp_all

/-- `_update_position` touches only `positions` (and the caller touches
`cash_balance`): every other component of the broker state is unchanged. -/
theorem update_position_preserves (b : MockBroker) (s : String)
    (side : OrderSide) (q : Int) (p : ℚ) :
    (b.update_position s side q p).orders = b.orders ∧
    (b.update_position s side q p).order_counter = b.order_counter ∧
    (b.update_position s side q p).market_prices = b.market_prices ∧
    (b.update_position s side q p).connected = b.connected ∧
    (b.update_position s side q p).client_order_map = b.client_order_map ∧
    (b.update_position s side q p).partial_fill_rate = b.partial_fill_rate ∧
    (b.update_position s side q p).rejection_rate = b.rejection_rate := by
  unfold MockBroker.update_position
  cases alistLookup b.positions s <;> cases side <;> dsimp only <;>
    first
      | exact ⟨rfl, rfl, rfl, rfl, rfl, rfl, rfl⟩
      | (split_ifs <;> exact ⟨rfl, rfl, rfl, rfl, rfl, rfl, rfl⟩)

/-- A successful `_simulate_fill` changes at most `positions`,
`cash_balance` and the order it was handed: orders map, counter, prices,
connection flag and idempotency map are untouched. -/
theorem simulate_fill_state_frame (b : MockBroker) (o : Order)
    (orc : FillOracle) (now : ℚ) (b' : MockBroker) (o' : Order)
    (h : b.simulate_fill o orc now = Except.ok (b', o')) :
    b'.orders = b.orders ∧ b'.order_counter = b.order_counter ∧
    b'.market_prices = b.market_prices ∧ b'.connected = b.connected ∧
    b'.client_order_map = b.client_order_map ∧
    b'.partial_fill_rate = b.partial_fill_rate ∧
    b'.rejection_rate = b.rejection_rate := by
  unfold MockBroker.simulate_fill at h
  dsimp only at h
  rcases hfp : fillPriceFor o.request
      (b.marketPriceOf o.request.symbol orc.jitter) with e | fp?
  · rw [hfp] at h; cases h
  · rw [hfp] at h
    rcases fp? with _ | fp
    · cases h
      exact ⟨rfl, rfl, rfl, rfl, rfl, rfl, rfl⟩
    · rcases hq : (if orc.partDraw < b.partial_fill_rate then
          randint 1 (o.request.qty - 1) orc.partQty
        else Except.ok (o.request.qty - o.filled_qty)) with e | fq
      · rw [hq] at h; cases h
      · rw [hq] at h
        have hup := update_position_preserves b o.request.symbol
          o.request.side fq fp
        by_cases hside : o.request.side = OrderSide.BUY <;>
          simp only [hside, reduceIte] at h <;> cases h <;>
          simp_all

/-- On a BUY LIMIT order whose limit price is strictly below the lowest
price the ±2% jitter can produce, `_simulate_fill` does nothing: the order
is non-marketable and both broker and order are returned unchanged. -/
theorem simulate_fill_not_marketable (b : MockBroker) (o : Order)
    (orc : FillOracle) (now : ℚ) (L P : ℚ)
    (hside : o.request.side = OrderSide.BUY)
    (htype : o.request.order_type = OrderType.LIMIT)
    (hlim : o.request.limit_price = some L)
    (hmkt : alistLookup b.market_prices o.request.symbol = some P)
    (hP : 0 < P) (hL : L < P * (49/50)) :
    b.simulate_fill o orc now = Except.ok (b, o) := by
  have hmp : P * (49/50) ≤ b.marketPriceOf o.request.symbol orc.jitter := by
    unfold MockBroker.marketPriceOf uniform
    rw [hmkt, Option.getD_some]
    have h1 : -(1 : ℚ)/50 ≤ min ((1 : ℚ)/50) (max (-(1 : ℚ)/50) orc.jitter) := by
      rcases min_cases ((1 : ℚ)/50) (max (-(1 : ℚ)/50) orc.jitter) with ⟨he, _⟩ | ⟨he, _⟩
      · rw [he]; norm_num
      · rw [he]; exact le_max_left _ _
    have h2 : (49 : ℚ)/50 ≤ 1 + min ((1 : ℚ)/50) (max (-(1 : ℚ)/50) orc.jitter) := by
      linarith
    calc P * (49/50) ≤ P * (1 + min ((1 : ℚ)/50) (max (-(1 : ℚ)/50) orc.jitter)) :=
          mul_le_mul_of_nonneg_left h2 hP.le
      _ = _ := rfl
  have hnm : ¬ (L ≥ b.marketPriceOf o.request.symbol orc.jitter) := by
    intro hge
    linarith
  unfold MockBroker.simulate_fill
  simp only [fillPriceFor, htype, hlim, hside, hnm, reduceIte, if_neg hnm]

/-- Case analysis of `_simulate_fill` on an unfilled order with positive
quantity: it either raises (leaving everything as it was) or succeeds with
an order for the same request whose `filled_qty` lies in `[0, request.qty]`
— and a NEW result means nothing happened at all. -/
theorem simulate_fill_cases (b : MockBroker) (o : Order) (orc : FillOracle)
    (now : ℚ) (hq : 0 < o.request.qty) (hf0 : o.filled_qty = 0) :
    (∃ e, b.simulate_fill o orc now = Except.error e) ∨
    (∃ b' o', b.simulate_fill o orc now = Except.ok (b', o') ∧
      o'.request = o.request ∧
      o.filled_qty ≤ o'.filled_qty ∧ 0 ≤ o'.filled_qty ∧
      o'.filled_qty ≤ o.request.qty ∧
      (o'.status = OrderStatus.NEW → o' = o)) := by
  unfold MockBroker.simulate_fill
  dsimp only
  rcases hfp : fillPriceFor o.request
      (b.marketPriceOf o.request.symbol orc.jitter) with e | fp?
  · exact Or.inl ⟨e, rfl⟩
  · rcases fp? with _ | fp
    · exact Or.inr ⟨b, o, rfl, rfl, le_refl _, by omega, by omega, fun _ => rfl⟩
    · by_cases hpart : orc.partDraw < b.partial_fill_rate
      · simp only [hpart, reduceIte]
        unfold randint
        by_cases hempty : o.request.qty - 1 < 1
        · simp only [hempty, reduceIte]
          exact Or.inl ⟨_, rfl⟩
        · simp only [hempty, reduceIte]
          have h1 : 1 ≤ min (o.request.qty - 1) (max 1 orc.partQty) := by
            have := le_max_left (1 : Int) orc.partQty
            have h2 : ¬ (o.request.qty - 1 < 1) := hempty
            rcases min_cases (o.request.qty - 1) (max 1 orc.partQty) with
              ⟨he, _⟩ | ⟨he, _⟩ <;> omega
          have h2 : min (o.request.qty - 1) (max 1 orc.partQty) ≤
              o.request.qty - 1 := min_le_left _ _
          refine Or.inr ⟨_, _, rfl, add_fill_request _ _ _, ?_, ?_, ?_, ?_⟩
          · rw [add_fill_filled_qty]; dsimp only; omega
          · rw [add_fill_filled_qty]; dsimp only; omega
          · rw [add_fill_filled_qty]; dsimp only; omega
          · intro hstat
            rw [add_fill_status] at hstat
            dsimp only at hstat
            split_ifs at hstat with hc1 hc2
            · omega
      · simp only [hpart, reduceIte]
        refine Or.inr ⟨_, _, rfl, add_fill_request _ _ _, ?_, ?_, ?_, ?_⟩
        · rw [add_fill_filled_qty]; dsimp only; omega
        · rw [add_fill_filled_qty]; dsimp only; omega
        · rw [add_fill_filled_qty]; dsimp only; omega
        · intro hstat
          rw [add_fill_status] at hstat
          dsimp only at hstat
          split_ifs at hstat with hc1 hc2
          · omega

/-! ### Order-map invariant of `MockBroker` (claim C5) -/

/-- Per-order invariant: `filled_qty` within `[0, request.qty]`, a positive
requested quantity, and an order that is still NEW is unfilled. -/
def OrderInv (o : Order) : Prop :=
  0 ≤ o.filled_qty ∧ o.filled_qty ≤ o.request.qty ∧ 0 < o.request.qty ∧
    (o.status = OrderStatus.NEW → o.filled_qty = 0)

/-- Broker invariant: every stored order satisfies `OrderInv` and sits under
a key minted from an earlier value of the order counter. -/
def MockBroker.Inv (b : MockBroker) : Prop :=
  ∀ k o, alistLookup b.orders k = some o →
    OrderInv o ∧ ∃ m, m < b.order_counter ∧ k = mkBrokerOrderId m

theorem inv_key_ne_fresh (b : MockBroker) (hInv : b.Inv) (k : String)
    (o : Order) (h : alistLookup b.orders k = some o) :
    k ≠ mkBrokerOrderId b.order_counter := by
  obtain ⟨-, m, hm, rfl⟩ := hInv k o h
  intro he
  exact absurd (mkBrokerOrderId_injective he) (by omega)

/-- One adapter operation preserves the broker invariant and never decreases
any stored order's `filled_qty`. -/
theorem applyOp_inv_mono (b : MockBroker) (op : MockOp) (hInv : b.Inv)
    (hop : op.valid) :
    (b.applyOp op).Inv ∧
    ∀ k o, alistLookup b.orders k = some o →
      ∃ o', alistLookup (b.applyOp op).orders k = some o' ∧
        o.filled_qty ≤ o'.filled_qty := by
  have hkeep : ∀ b' : MockBroker, b'.orders = b.orders →
      b.order_counter ≤ b'.order_counter →
      b'.Inv ∧ ∀ k o, alistLookup b.orders k = some o →
        ∃ o', alistLookup b'.orders k = some o' ∧
          o.filled_qty ≤ o'.filled_qty := by
    intro b' ho hc
    constructor
    · intro k o h
      rw [ho] at h
      obtain ⟨h1, m, hm, hk⟩ := hInv k o h
      exact ⟨h1, m, by omega, hk⟩
    · intro k o h
      exact ⟨o, by rw [ho]; exact h, le_refl _⟩
  have hinsert : ∀ (b' : MockBroker) (o' : Order),
      b'.orders = alistInsert b.orders (mkBrokerOrderId b.order_counter) o' →
      b'.order_counter = b.order_counter + 1 →
      OrderInv o' →
      b'.Inv ∧ ∀ k o, alistLookup b.orders k = some o →
        ∃ o'', alistLookup b'.orders k = some o'' ∧
          o.filled_qty ≤ o''.filled_qty := by
    intro b' o' ho hc hoi
    constructor
    · intro k o h
      rw [ho] at h
      by_cases hk : k = mkBrokerOrderId b.order_counter
      · subst hk
        rw [alistLookup_insert_self] at h
        cases h
        exact ⟨hoi, b.order_counter, by omega, rfl⟩
      · rw [alistLookup_insert_ne _ _ _ _ hk] at h
        obtain ⟨h1, m, hm, hkm⟩ := hInv k o h
        exact ⟨h1, m, by omega, hkm⟩
    · intro k o h
      have hk := inv_key_ne_fresh b hInv k o h
      exact ⟨o, by rw [ho, alistLookup_insert_ne _ _ _ _ hk]; exact h,
        le_refl _⟩
  have hreplace : ∀ (b' : MockBroker) (bid : String) (oOld o' : Order),
      alistLookup b.orders bid = some oOld →
      b'.orders = alistInsert b.orders bid o' →
      b'.order_counter = b.order_counter →
      OrderInv o' → oOld.filled_qty ≤ o'.filled_qty →
      b'.Inv ∧ ∀ k o, alistLookup b.orders k = some o →
        ∃ o'', alistLookup b'.orders k = some o'' ∧
          o.filled_qty ≤ o''.filled_qty := by
    intro b' bid oOld o' hbid ho hc hoi hle
    constructor
    · intro k o h
      rw [ho] at h
      by_cases hk : k = bid
      · subst hk
        rw [alistLookup_insert_self] at h
        cases h
        obtain ⟨-, m, hm, hkm⟩ := hInv k oOld hbid
        exact ⟨hoi, m, by omega, hkm⟩
      · rw [alistLookup_insert_ne _ _ _ _ hk] at h
        obtain ⟨h1, m, hm, hkm⟩ := hInv k o h
        exact ⟨h1, m, by omega, hkm⟩
    · intro k o h
      by_cases hk : k = bid
      · subst hk
        rw [hbid] at h
        cases h
        exact ⟨o', by rw [ho, alistLookup_insert_self], hle⟩
      · exact ⟨o, by rw [ho, alistLookup_insert_ne _ _ _ _ hk]; exact h,
          le_refl _⟩
  cases op with
  | getPositions => exact hkeep b rfl (le_refl _)
  | getAccountInfo => exact hkeep b rfl (le_refl _)
  | setPrice s p => exact hkeep _ rfl (le_refl _)
  | connect => exact hkeep _ rfl (le_refl _)
  | disconnect => exact hkeep _ rfl (le_refl _)
  | cancel bid now =>
    by_cases hcn : b.is_connected = true
    · simp only [MockBroker.applyOp, MockBroker.cancel_order, hcn,
        Bool.not_true, Bool.false_eq_true, not_false_eq_true, reduceIte]
      rcases hlk : alistLookup b.orders bid with _ | o₀
      · exact hkeep b rfl (le_refl _)
      · by_cases ht : o₀.is_terminal = true
        · simp only [ht, reduceIte]
          exact hkeep b rfl (le_refl _)
        · simp only [Bool.not_eq_true] at ht
          simp only [ht, Bool.false_eq_true, reduceIte]
          obtain ⟨⟨h0, h1, h2, h3⟩, -⟩ := hInv bid o₀ hlk
          exact hreplace _ bid o₀ _ hlk rfl rfl
            ⟨h0, h1, h2, fun hh => absurd hh (by simp)⟩ (le_refl _)
    · simp only [MockBroker.applyOp, MockBroker.cancel_order, if_pos hcn]
      exact hkeep b rfl (le_refl _)
  | forceFill bid p now =>
    simp only [MockBroker.applyOp, MockBroker.force_fill_order]
    rcases hlk : alistLookup b.orders bid with _ | o₀
    · exact hkeep b rfl (le_refl _)
    · by_cases ht : o₀.is_terminal = true
      · simp only [ht, reduceIte]
        exact hkeep b rfl (le_refl _)
      · simp only [Bool.not_eq_true] at ht
        simp only [ht, Bool.false_eq_true, reduceIte]
        obtain ⟨⟨h0, h1, h2, h3⟩, -⟩ := hInv bid o₀ hlk
        have hfq : ∀ (f : OrderFill) (now' : ℚ), f.qty = o₀.remaining_qty →
            (o₀.add_fill f now').filled_qty = o₀.request.qty := by
          intro f now' hf
          rw [add_fill_filled_qty, hf, Order.remaining_qty]
          omega
        have hoi : ∀ (f : OrderFill) (now' : ℚ), f.qty = o₀.remaining_qty →
            OrderInv (o₀.add_fill f now') := by
          intro f now' hf
          refine ⟨?_, ?_, ?_, ?_⟩
          · rw [hfq f now' hf]
            omega
          · rw [add_fill_request, hfq f now' hf]
          · rw [add_fill_request]
            exact h2
          · intro hh
            rw [add_fill_status] at hh
            split_ifs at hh with hc1 hc2
            all_goals first
              | simp at hh
              | (exfalso
                 rw [hf, Order.remaining_qty] at hc1
                 omega)
        by_cases hside : o₀.request.side = OrderSide.BUY <;>
          simp only [hside, reduceIte] <;>
          [skip; skip] <;>
          exact hreplace _ bid o₀ _ hlk
            (update_position_preserves _ _ _ _ _).1
            (update_position_preserves _ _ _ _ _).2.1
            (hoi _ now rfl)
            (by rw [hfq _ now rfl]; exact h1)
  | getOrd bid orc now =>
    by_cases hcn : b.is_connected = true
    · simp only [MockBroker.applyOp, MockBroker.get_order, hcn,
        Bool.not_true, Bool.false_eq_true, not_false_eq_true, reduceIte]
      rcases hlk : alistLookup b.orders bid with _ | o₀
      · exact hkeep b rfl (le_refl _)
      · by_cases hnd : o₀.status = OrderStatus.NEW ∧ orc.refreshDraw < (1 : ℚ)/10
        · simp only [hnd, and_self, reduceIte, if_pos hnd]
          obtain ⟨⟨h0, h1, h2, h3⟩, -⟩ := hInv bid o₀ hlk
          have hf0 : o₀.filled_qty = 0 := h3 hnd.1
          rcases simulate_fill_cases b o₀ orc.fill now h2 hf0 with
            ⟨e, he⟩ | ⟨b₂, o₂, heq, hreq, hle, h0', hub, hnew'⟩
          · rw [he]
            exact hkeep b rfl (le_refl _)
          · rw [heq]
            have hframe := simulate_fill_state_frame b o₀ orc.fill now b₂ o₂ heq
            refine hreplace _ bid o₀ o₂ hlk
              (congrArg (fun l => alistInsert l bid o₂) hframe.1) hframe.2.1
              ⟨h0', ?_, ?_, ?_⟩ hle
            · rw [hreq]; exact hub
            · rw [hreq]; exact h2
            · intro hh
              rw [hnew' hh]
              exact hf0
        · simp only [if_neg hnd]
          exact hkeep b rfl (le_refl _)
    · simp only [MockBroker.applyOp, MockBroker.get_order, if_pos hcn]
      exact hkeep b rfl (le_refl _)
  | place r orc now =>
    have hqty : 0 < r.qty := isValid_qty_pos r hop
    by_cases hcn : b.is_connected = true
    · simp only [MockBroker.applyOp, MockBroker.place_order, hcn,
        Bool.not_true, Bool.false_eq_true, not_false_eq_true, reduceIte]
      rcases hmap : alistLookup b.client_order_map r.client_order_id with _ | bid0
      · by_cases hrej : orc.rejectDraw < b.rejection_rate
        · simp only [hrej, reduceIte, if_pos hrej]
          exact hinsert _ _ rfl rfl
            ⟨le_refl 0, hqty.le, hqty, fun hh => absurd hh (by simp [mkOrder])⟩
        · simp only [if_neg hrej]
          rcases simulate_fill_cases { b with order_counter := b.order_counter + 1 }
              (mkOrder (mkBrokerOrderId b.order_counter) r OrderStatus.NEW none now)
              orc.fill now hqty rfl with
            ⟨e, he⟩ | ⟨b₂, o₂, heq, hreq, hle, h0', hub, hnew'⟩
          · rw [he]
            exact hkeep _ rfl (Nat.le_succ _)
          · rw [heq]
            have hframe := simulate_fill_state_frame _ _ orc.fill now b₂ o₂ heq
            refine hinsert _ o₂
              (congrArg (fun l =>
                alistInsert l (mkBrokerOrderId b.order_counter) o₂) hframe.1)
              hframe.2.1 ⟨h0', ?_, ?_, ?_⟩
            · rw [hreq]; exact hub
            · rw [hreq]; exact hqty
            · intro hh
              rw [hnew' hh]
              rfl
      · dsimp only
        rcases hlk2 : alistLookup b.orders bid0 with _ | o₀
        · exact hkeep b rfl (le_refl _)
        · exact hkeep b rfl (le_refl _)
    · simp only [MockBroker.applyOp, MockBroker.place_order, if_pos hcn]
      exact hkeep b rfl (le_refl _)

theorem runOps_inv_mono (ops : List MockOp) :
    ∀ b : MockBroker, b.Inv → (∀ op ∈ ops, op.valid) →
      (b.runOps ops).Inv ∧
      ∀ k o, alistLookup b.orders k = some o →
        ∃ o', alistLookup (b.runOps ops).orders k = some o' ∧
          o.filled_qty ≤ o'.filled_qty := by
  induction ops with
  | nil =>
    intro b hInv _
    exact ⟨hInv, fun k o h => ⟨o, h, le_refl _⟩⟩
  | cons op rest ih =>
    intro b hInv hops
    have h1 := applyOp_inv_mono b op hInv (hops op (List.mem_cons_self _ _))
    have h2 := ih (b.applyOp op) h1.1
      (fun op' h' => hops op' (List.mem_cons_of_mem _ h'))
    have hrun : b.runOps (op :: rest) = (b.applyOp op).runOps rest := rfl
    rw [hrun]
    refine ⟨h2.1, ?_⟩
    intro k o h
    obtain ⟨o₁, hl₁, hle₁⟩ := h1.2 k o h
    obtain ⟨o₂, hl₂, hle₂⟩ := h2.2 k o₁ hl₁
    exact ⟨o₂, hl₂, le_trans hle₁ hle₂⟩

/-- C5: over any sequence of adapter operations (place_order, get_order,
cancel_order, force_fill_order, and the read/test hooks) on a `MockBroker`
satisfying the order-map invariant, every stored order keeps
`0 ≤ filled_qty ≤ request.qty` after every operation, and each order's
`filled_qty` never decreases along the sequence. -/
theorem c5_filled_qty_monotone_and_bounded (b : MockBroker) (ops : List MockOp)
    (hInv : b.Inv) (hops : ∀ op ∈ ops, op.valid) :
    (∀ k o', alistLookup (b.runOps ops).orders k = some o' →
      0 ≤ o'.filled_qty ∧ o'.filled_qty ≤ o'.request.qty) ∧
    (∀ k o, alistLookup b.orders k = some o →
      ∃ o', alistLookup (b.runOps ops).orders k = some o' ∧
        o.filled_qty ≤ o'.filled_qty) := by
  obtain ⟨hInv', hmono⟩ := runOps_inv_mono ops b hInv hops
  refine ⟨?_, hmono⟩
  intro k o' h
  obtain ⟨⟨h0, h1, -, -⟩, -⟩ := hInv' k o' h
  exact ⟨h0, h1⟩

def c5Broker : MockBroker :=
  { cancelBroker with order_counter := 1002 }

theorem c5_filled_qty_monotone_and_bounded_witness :
    ∃ o', alistLookup (c5Broker.runOps
        [MockOp.cancel "MOCK_1000" 5, MockOp.setPrice "AAPL" 200,
         MockOp.getAccountInfo]).orders "MOCK_1000" = some o' ∧
      partialOrder.filled_qty ≤ o'.filled_qty ∧
      0 ≤ o'.filled_qty ∧ o'.filled_qty ≤ o'.request.qty := by
  have hInv : c5Broker.Inv := by
    intro k o h
    by_cases h1 : ("MOCK_1000" : String) = k
    · rw [← h1] at h ⊢
      rw [show alistLookup c5Broker.orders "MOCK_1000" = some partialOrder
        from rfl] at h
      cases h
      exact ⟨⟨by decide, by decide, by decide, by decide⟩, 1000, by decide, rfl⟩
    · by_cases h2 : ("MOCK_1001" : String) = k
      · rw [← h2] at h ⊢
        rw [show alistLookup c5Broker.orders "MOCK_1001" = some filledOrder
          from rfl] at h
        cases h
        exact ⟨⟨by decide, by decide, by decide, by decide⟩, 1001, by decide, rfl⟩
      · exfalso
        have hnone : alistLookup c5Broker.orders k = none := by
          simp [c5Broker, cancelBroker, alistLookup, h1, h2]
        rw [hnone] at h
        cases h
  have h := c5_filled_qty_monotone_and_bounded c5Broker
    [MockOp.cancel "MOCK_1000" 5, MockOp.setPrice "AAPL" 200,
     MockOp.getAccountInfo] hInv (by intro op hop; fin_cases hop <;> trivial)
  obtain ⟨o', hl, hle⟩ := h.2 "MOCK_1000" partialOrder rfl
  obtain ⟨h0, h1⟩ := h.1 "MOCK_1000" o' hl
  exact ⟨o', hl, hle, h0, h1⟩

/-! ### Non-marketable BUY LIMIT orders (claim C8) -/

/-- Invariant tracked for claim C8: the broker still stores the given order
unchanged under its id, the symbol's reference price is unchanged, and the
id was minted below the current counter. -/
def C8Inv (bid s : String) (P : ℚ) (o : Order) (b : MockBroker) : Prop :=
  alistLookup b.orders bid = some o ∧
  alistLookup b.market_prices s = some P ∧
  ∃ m, m < b.order_counter ∧ bid = mkBrokerOrderId m

theorem c8_inv_step (bid s : String) (L P : ℚ) (o : Order) (b : MockBroker)
    (op : MockOp)
    (hP : 0 < P) (hL : L < P * (49/50))
    (hside : o.request.side = OrderSide.BUY)
    (htype : o.request.order_type = OrderType.LIMIT)
    (hsym : o.request.symbol = s)
    (hlim : o.request.limit_price = some L)
    (hop : op.placeOrGet) (h : C8Inv bid s P o b) :
    C8Inv bid s P o (b.applyOp op) := by
  obtain ⟨hord, hmkt, m, hm, hbid⟩ := h
  have hfresh : bid ≠ mkBrokerOrderId b.order_counter := by
    rw [hbid]
    intro he
    exact absurd (mkBrokerOrderId_injective he) (by omega)
  cases op with
  | place r orc now =>
    by_cases hcn : b.is_connected = true
    · simp only [MockBroker.applyOp, MockBroker.place_order, hcn,
        Bool.not_true, Bool.false_eq_true, not_false_eq_true, reduceIte]
      rcases hmap : alistLookup b.client_order_map r.client_order_id with _ | bid0
      · by_cases hrej : orc.rejectDraw < b.rejection_rate
        · simp only [hrej, reduceIte, if_pos hrej]
          refine ⟨?_, hmkt, m, Nat.lt_succ_of_lt hm, hbid⟩
          show alistLookup (alistInsert b.orders (mkBrokerOrderId b.order_counter)
            (mkOrder (mkBrokerOrderId b.order_counter) r OrderStatus.REJECTED
              (some "Mock rejection for testing") now)) bid = some o
          rw [alistLookup_insert_ne _ _ _ _ hfresh]
          exact hord
        · simp only [if_neg hrej]
          rcases hsim : ({ b with order_counter := b.order_counter + 1 }
              : MockBroker).simulate_fill
              (mkOrder (mkBrokerOrderId b.order_counter) r OrderStatus.NEW
                none now) orc.fill now with e | bo
          · exact ⟨hord, hmkt, m, Nat.lt_succ_of_lt hm, hbid⟩
          · obtain ⟨b₂, o₂⟩ := bo
            have hframe := simulate_fill_state_frame _ _ _ _ b₂ o₂ hsim
            refine ⟨?_, ?_, m, ?_, hbid⟩
            · show alistLookup (alistInsert b₂.orders
                (mkBrokerOrderId b.order_counter) o₂) bid = some o
              rw [alistLookup_insert_ne _ _ _ _ hfresh, hframe.1]
              exact hord
            · show alistLookup b₂.market_prices s = some P
              rw [hframe.2.2.1]
              exact hmkt
            · show m < b₂.order_counter
              rw [hframe.2.1]
              exact Nat.lt_succ_of_lt hm
      · dsimp only
        rcases hlk2 : alistLookup b.orders bid0 with _ | o₀
        · exact ⟨hord, hmkt, m, hm, hbid⟩
        · exact ⟨hord, hmkt, m, hm, hbid⟩
    · simp only [MockBroker.applyOp, MockBroker.place_order, if_pos hcn]
      exact ⟨hord, hmkt, m, hm, hbid⟩
  | getOrd bid' orc now =>
    by_cases hcn : b.is_connected = true
    · simp only [MockBroker.applyOp, MockBroker.get_order, hcn,
        Bool.not_true, Bool.false_eq_true, not_false_eq_true, reduceIte]
      rcases hlk : alistLookup b.orders bid' with _ | o₀
      · exact ⟨hord, hmkt, m, hm, hbid⟩
      · by_cases hnd : o₀.status = OrderStatus.NEW ∧ orc.refreshDraw < (1 : ℚ)/10
        · simp only [hnd, and_self, reduceIte, if_pos hnd]
          by_cases hbb : bid' = bid
          · subst hbb
            have ho₀ : o₀ = o := by
              rw [hord] at hlk
              exact ((Option.some.injEq _ _).mp hlk).symm
            subst ho₀
            have hsim := simulate_fill_not_marketable b o₀ orc.fill now L P
              hside htype hlim (by rw [hsym]; exact hmkt) hP hL
            rw [hsim]
            refine ⟨?_, hmkt, m, hm, hbid⟩
            show alistLookup (alistInsert b.orders bid' o₀) bid' = some o₀
            rw [alistLookup_insert_self]
          · rcases hsim : b.simulate_fill o₀ orc.fill now with e | bo
            · exact ⟨hord, hmkt, m, hm, hbid⟩
            · obtain ⟨b₂, o₂⟩ := bo
              have hframe := simulate_fill_state_frame _ _ _ _ b₂ o₂ hsim
              refine ⟨?_, ?_, m, ?_, hbid⟩
              · show alistLookup (alistInsert b₂.orders bid' o₂) bid = some o
                rw [alistLookup_insert_ne _ _ _ _ (fun hh => hbb hh.symm),
                  hframe.1]
                exact hord
              · show alistLookup b₂.market_prices s = some P
                rw [hframe.2.2.1]
                exact hmkt
              · show m < b₂.order_counter
                rw [hframe.2.1]
                exact hm
        · simp only [if_neg hnd]
          exact ⟨hord, hmkt, m, hm, hbid⟩
    · simp only [MockBroker.applyOp, MockBroker.get_order, if_pos hcn]
      exact ⟨hord, hmkt, m, hm, hbid⟩
  | cancel bid' now => exact hop.elim
  | forceFill bid' p now => exact hop.elim
  | getPositions => exact hop.elim
  | getAccountInfo => exact hop.elim
  | setPrice s' p => exact hop.elim
  | connect => exact hop.elim
  | disconnect => exact hop.elim

theorem c8_inv_runOps (bid s : String) (L P : ℚ) (o : Order)
    (ops : List MockOp)
    (hP : 0 < P) (hL : L < P * (49/50))
    (hside : o.request.side = OrderSide.BUY)
    (htype : o.request.order_type = OrderType.LIMIT)
    (hsym : o.request.symbol = s)
    (hlim : o.request.limit_price = some L) :
    ∀ b : MockBroker, (∀ op ∈ ops, op.placeOrGet) → C8Inv bid s P o b →
      C8Inv bid s P o (b.runOps ops) := by
  induction ops with
  | nil => exact fun b _ h => h
  | cons op rest ih =>
    intro b hops h
    have h1 := c8_inv_step bid s L P o b op hP hL hside htype hsym hlim
      (hops op (List.mem_cons_self _ _)) h
    exact ih (b.applyOp op) (fun op' h' => hops op' (List.mem_cons_of_mem _ h')) h1

/-- A successful `_simulate_fill` that changes a BUY LIMIT order's fills can
only happen when the limit price is at or above the simulated market price,
and the appended fill's price is no worse than the limit. -/
theorem buy_limit_fill_marketable (b : MockBroker) (o : Order)
    (orc : FillOracle) (now : ℚ) (L : ℚ) (b' : MockBroker) (o' : Order)
    (hside : o.request.side = OrderSide.BUY)
    (htype : o.request.order_type = OrderType.LIMIT)
    (hlim : o.request.limit_price = some L)
    (hok : b.simulate_fill o orc now = Except.ok (b', o'))
    (hne : o'.fills ≠ o.fills) :
    b.marketPriceOf o.request.symbol orc.jitter ≤ L ∧
    ∃ f, o'.fills = o.fills ++ [f] ∧ f.price ≤ L := by
  unfold MockBroker.simulate_fill at hok
  dsimp only at hok
  simp only [fillPriceFor, htype, hlim, hside] at hok
  by_cases hm : L ≥ b.marketPriceOf o.request.symbol orc.jitter
  · simp only [hm, reduceIte, if_pos hm] at hok
    rcases hq : (if orc.partDraw < b.partial_fill_rate then
        randint 1 (o.request.qty - 1) orc.partQty
      else Except.ok (o.request.qty - o.filled_qty)) with e | fq
    · rw [hq] at hok
      cases hok
    · rw [hq] at hok
      cases hok
      exact ⟨hm, _, add_fill_fills _ _ _, min_le_left _ _⟩
  · simp only [if_neg hm] at hok
    cases hok
    exact absurd rfl hne

/-- C8: a BUY LIMIT order whose limit price is strictly below every price the
±2% jitter can produce from the symbol's reference price (limit < P·49/50)
is never filled by any sequence of place_order / get_order operations — the
stored order stays exactly as it was, status NEW and filled_qty 0, until a
cancel or a price change intervenes; and a BUY LIMIT fill can only ever
happen when limit_price ≥ market_price, at a fill price no worse than the
limit. -/
theorem c8_nonmarketable_buy_limit_never_fills (b : MockBroker)
    (bid s : String) (L P : ℚ) (o : Order) (ops : List MockOp)
    (hP : 0 < P) (hL : L < P * (49/50))
    (hmkt : alistLookup b.market_prices s = some P)
    (hord : alistLookup b.orders bid = some o)
    (hnew : o.status = OrderStatus.NEW) (hfq : o.filled_qty = 0)
    (hside : o.request.side = OrderSide.BUY)
    (htype : o.request.order_type = OrderType.LIMIT)
    (hsym : o.request.symbol = s) (hlim : o.request.limit_price = some L)
    (hbid : ∃ m, m < b.order_counter ∧ bid = mkBrokerOrderId m)
    (hops : ∀ op ∈ ops, op.placeOrGet) :
    (alistLookup (b.runOps ops).orders bid = some o ∧
      o.status = OrderStatus.NEW ∧ o.filled_qty = 0) ∧
    (∀ (b₁ : MockBroker) (o₁ : Order) (orc : FillOracle) (now L₁ : ℚ)
        (b₂ : MockBroker) (o₂ : Order),
      o₁.request.side = OrderSide.BUY →
      o₁.request.order_type = OrderType.LIMIT →
      o₁.request.limit_price = some L₁ →
      b₁.simulate_fill o₁ orc now = Except.ok (b₂, o₂) →
      o₂.fills ≠ o₁.fills →
      b₁.marketPriceOf o₁.request.symbol orc.jitter ≤ L₁ ∧
      ∃ f, o₂.fills = o₁.fills ++ [f] ∧ f.price ≤ L₁) := by
  refine ⟨⟨?_, hnew, hfq⟩,
    fun b₁ o₁ orc now L₁ b₂ o₂ hs ht hl hok hne =>
      buy_limit_fill_marketable b₁ o₁ orc now L₁ b₂ o₂ hs ht hl hok hne⟩
  exact (c8_inv_runOps bid s L P o ops hP hL hside htype hsym hlim b hops
    ⟨hord, hmkt, hbid⟩).1

/-- Broker used to witness C8: a connected `MockBroker` holding a BUY LIMIT
order on AAPL at limit 90 against the 180 reference price. -/
def c8Order : Order :=
  { broker_order_id := "MOCK_1000"
    request :=
      { client_order_id := "c8", symbol := "AAPL", qty := 10,
        side := OrderSide.BUY, order_type := OrderType.LIMIT,
        limit_price := some 90, stop_price := none, tif := TimeInForce.DAY }
    status := OrderStatus.NEW
    filled_qty := 0
    avg_fill_price := none
    fills := []
    created_at := 1
    updated_at := 1
    reject_reason := none }

def c8Broker : MockBroker :=
  { (mkMockBroker true 0 0 100000).connect with
      orders := [("MOCK_1000", c8Order)]
      order_counter := 1001 }

theorem c8_nonmarketable_buy_limit_never_fills_witness :
    alistLookup (c8Broker.runOps
      [MockOp.getOrd "MOCK_1000"
        { refreshDraw := 0, fill := { jitter := 0, partDraw := 1, partQty := 1 } } 2,
       MockOp.getOrd "MOCK_1000"
        { refreshDraw := 0, fill := { jitter := -1, partDraw := 1, partQty := 1 } } 3]).orders
      "MOCK_1000" = some c8Order ∧
    c8Order.status = OrderStatus.NEW ∧ c8Order.filled_qty = 0 := by
  have h := c8_nonmarketable_buy_limit_never_fills c8Broker "MOCK_1000" "AAPL"
    90 180 c8Order
    [MockOp.getOrd "MOCK_1000"
      { refreshDraw := 0, fill := { jitter := 0, partDraw := 1, partQty := 1 } } 2,
     MockOp.getOrd "MOCK_1000"
      { refreshDraw := 0, fill := { jitter := -1, partDraw := 1, partQty := 1 } } 3]
    (by norm_num) (by norm_num) rfl rfl rfl rfl rfl rfl rfl rfl
    ⟨1000, by decide, rfl⟩
    (by intro op hop; fin_cases hop <;> trivial)
  exact h.1

end SwingSage
